import Mathlib

/-!
# Verification of the youtube_comments pipeline specification

Shallow embedding of the core logic of the repository:

* `extract_video_id` (src/analyze.py lines 24-67, identically src/sentiment_search.py
  lines 23-53): video-ID resolution from URLs / bare tokens.
* `fetchLoop` / `fetch_video_comments` (src/analyze.py lines 137-219): capped
  comment pagination and CSV output.
* `analyze_comments_with_openai` / `process_comment_file` (src/sentiment.py
  lines 107-249): LLM summarization stage and blob-driven batch processing.

Strings are modelled by Lean `String` (a wrapper around `List Char`); the
character-level work happens on `List Char`.  External services (YouTube
comment API, blob store, OpenAI endpoint) are modelled as explicit function
parameters; ambient randomness of `DataFrame.sample` is modelled as an
injected permutation of the row indices.
-/

/-! ## Video reference resolver (src/analyze.py `extract_video_id`) -/

/-- The character class `[a-zA-Z0-9_-]` of the video-ID regexes. -/
def isIdChar (c : Char) : Bool :=
  c.isAlphanum || c == '_' || c == '-'

/-- `re.match(r'^[a-zA-Z0-9_-]{11}$', url)` as a Boolean predicate
(src/analyze.py line 60).  Python's `$` matches at the end of the string
*or just before a newline at the end of the string*, so the regex also
accepts 11 class characters followed by a single trailing `'\n'` — and the
code then returns the whole 12-character string. -/
def validId (l : List Char) : Bool :=
  (l.length == 11 && l.all isIdChar) ||
  (l.length == 12 && ((l.take 11).all isIdChar && l.drop 11 == ['\n']))

/-- The candidate capture at the current position: the 11 characters that
follow the pattern's literal part. -/
def segTok (lit s : List Char) : List Char :=
  (s.drop lit.length).take 11

/-- Whether a pattern `<literal>([a-zA-Z0-9_-]{11})` matches at the current
position: the literal is a prefix and is followed by at least 11 characters
of the class. -/
def segMatch (lit s : List Char) : Bool :=
  lit.isPrefixOf s && ((segTok lit s).length == 11 && (segTok lit s).all isIdChar)

/-- `re.search` for a pattern of the shape `<literal>([a-zA-Z0-9_-]{11})`:
scan left to right; at the first position where the literal matches and is
followed by at least 11 characters of the class, return those 11 characters
(the capture group).  This is exactly the regex engine's behavior on the two
patterns of src/analyze.py lines 41-44. -/
def searchSeg (lit : List Char) : List Char → Option (List Char)
  | [] => none
  | c :: t =>
    if segMatch lit (c :: t) then some (segTok lit (c :: t))
    else searchSeg lit t

/-- Characters allowed in a URL scheme by `urllib.parse`
(ASCII letters, digits, `+`, `-`, `.`). -/
def isSchemeChar (c : Char) : Bool :=
  c.isAlphanum || c == '+' || c == '-' || c == '.'

/-- The scheme-stripping step of `urllib.parse.urlsplit`: if the input has a
`:` at position `i > 0`, starts with an ASCII letter and everything before the
`:` is a scheme character, drop the scheme and the colon.  (Modern CPython
additionally removes `\t`, `\r`, `\n` from the URL before parsing; that
normalization is not modelled — no statement below quantifies over inputs
containing those characters inside a URL.) -/
def splitScheme (url : List Char) : List Char :=
  if url.any (fun c => c == ':') then
    let i := (url.takeWhile (fun c => c ≠ ':')).length
    if 0 < i ∧ (url.headD '0').isAlpha = true ∧ (url.take i).all isSchemeChar = true then
      url.drop (i + 1)
    else url
  else url

/-- The netloc-splitting step of `urllib.parse.urlsplit`: when the remainder
(after the scheme) starts with `//`, the netloc runs up to the next `/`, `?`
or `#`; the rest is returned alongside.  Otherwise netloc is empty. -/
def netlocSplit (rest : List Char) : List Char × List Char :=
  if rest.take 2 = ['/', '/'] then
    let r := rest.drop 2
    (r.takeWhile (fun c => !(c == '/' || c == '?' || c == '#')),
     r.dropWhile (fun c => !(c == '/' || c == '?' || c == '#')))
  else ([], rest)

/-- `urlparse(url).netloc`. -/
def pyNetloc (url : List Char) : List Char :=
  (netlocSplit (splitScheme url)).1

/-- `urlparse(url).query`: after scheme and netloc, cut the fragment at the
first `#`, then the query is what follows the first `?` (if any). -/
def pyQuery (url : List Char) : List Char :=
  let rest := (netlocSplit (splitScheme url)).2
  let preFrag := rest.takeWhile (fun c => c ≠ '#')
  if preFrag.any (fun c => c == '?') then
    (preFrag.dropWhile (fun c => c ≠ '?')).drop 1
  else []

/-- Python `sub in s` substring containment on character lists. -/
def containsSub (pat : List Char) : List Char → Bool
  | [] => pat.isEmpty
  | c :: t => pat.isPrefixOf (c :: t) || containsSub pat t

/-- Python `str.split(sep)`: split at every separator, keeping empty pieces. -/
def pySplitOn (sep : Char) : List Char → List (List Char)
  | [] => [[]]
  | c :: t =>
    if c == sep then [] :: pySplitOn sep t
    else
      match pySplitOn sep t with
      | [] => [[c]]
      | h :: r => (c :: h) :: r

/-- One hex digit, as used by percent-decoding. -/
def hexVal? (c : Char) : Option Nat :=
  if c.isDigit then some (c.toNat - '0'.toNat)
  else if 'a' ≤ c ∧ c ≤ 'f' then some (c.toNat - 'a'.toNat + 10)
  else if 'A' ≤ c ∧ c ≤ 'F' then some (c.toNat - 'A'.toNat + 10)
  else none

/-- `urllib.parse.unquote_plus` restricted to single-byte escapes: `+`
becomes a space and `%XX` becomes the character with code `XX` (multi-byte
UTF-8 escape sequences are approximated byte-by-byte; no input relevant to
the claims uses them). -/
def pyUnquotePlus : List Char → List Char
  | [] => []
  | '+' :: t => ' ' :: pyUnquotePlus t
  | '%' :: a :: b :: t =>
    match hexVal? a, hexVal? b with
    | some x, some y => Char.ofNat (16 * x + y) :: pyUnquotePlus t
    | _, _ => '%' :: pyUnquotePlus (a :: b :: t)
  | c :: t => c :: pyUnquotePlus t

/-- `urllib.parse.parse_qsl(query)` with the default options: split the query
on `&`, skip empty pieces, skip pieces without `=`, skip pieces whose raw
value is empty, and unquote names and values. -/
def qsPairs (query : List Char) : List (List Char × List Char) :=
  (pySplitOn '&' query).filterMap fun nv =>
    if nv.isEmpty then none
    else if nv.any (fun c => c == '=') then
      let name := nv.takeWhile (fun c => c ≠ '=')
      let value := (nv.dropWhile (fun c => c ≠ '=')).drop 1
      if value.isEmpty then none
      else some (pyUnquotePlus name, pyUnquotePlus value)
    else none

/-- `parse_qs(query)['v'][0]` as an `Option`: the value of the first
query-string pair named `v` (with a non-empty value), if any.  `none` models
`'v' not in query_params`. -/
def firstV (query : List Char) : Option (List Char) :=
  ((qsPairs query).find? (fun p => p.1 == ['v'])).map (·.2)

/-- The `youtube.com/watch?v=` branch of `extract_video_id`
(src/analyze.py lines 52-57): if the parsed netloc contains `youtube.com` and
a `v` query parameter is present, return its first value — unvalidated. -/
def watchV (url : List Char) : Option (List Char) :=
  if containsSub "youtube.com".data (pyNetloc url) then firstV (pyQuery url)
  else none

/-- The regex literal of `r'youtu\.be/([a-zA-Z0-9_-]{11})'`. -/
def ybLit : List Char := "youtu.be/".data

/-- The regex literal of `r'youtube\.com/shorts/([a-zA-Z0-9_-]{11})'`. -/
def shortsLit : List Char := "youtube.com/shorts/".data

/-- `extract_video_id` on character lists (src/analyze.py lines 24-67):
try the `youtu.be` pattern, then the `shorts` pattern, then the
`watch?v=` query parameter, then the bare 11-character token; otherwise
`None`. -/
def extractL (url : List Char) : Option (List Char) :=
  match searchSeg ybLit url with
  | some tok => some tok
  | none =>
    match searchSeg shortsLit url with
    | some tok => some tok
    | none =>
      match watchV url with
      | some v => some v
      | none => if validId url then some url else none

/-- `extract_video_id` at the `String` level. -/
def extract_video_id (url : String) : Option String :=
  (extractL url.data).map String.mk

/-- The watch-URL `v`-parameter branch at the `String` level. -/
def watch_v_value (url : String) : Option String :=
  (watchV url.data).map String.mk

/-! ## Comment fetcher (src/analyze.py `fetch_video_comments`) -/

/-- `max_comments = 500` (src/analyze.py line 162): "Limit number of
comments to avoid quota issues". -/
def maxComments : Nat := 500

/-- One response of `youtube.commentThreads().list(...).execute()`: a page of
items together with whether a `nextPageToken` is present, or an `HttpError`
(the comments-disabled 403 is distinguished from other errors, src/analyze.py
lines 191-196). -/
inductive CommentsApiResponse (α : Type) where
  | ok (items : List α) (nextPageToken : Bool)
  | commentsDisabled
  | apiError
deriving DecidableEq

/-- The number of items carried by a response (0 for errors). -/
def pageLen {α : Type} : CommentsApiResponse α → Nat
  | .ok items _ => items.length
  | .commentsDisabled => 0
  | .apiError => 0

/-- The pagination loop of `fetch_video_comments` (src/analyze.py lines
165-204).  `service` maps the page index (the succession of page tokens) to
the API response; `acc` is the accumulated `comments` list, whose length is
`total_fetched`.  Mirroring the source: stop on an `HttpError`, on an empty
page, on a missing next-page token, or once the accumulated count reaches
`max_comments` — a whole page is appended before the cap is re-checked. -/
def fetchLoop {α : Type} (service : Nat → CommentsApiResponse α) (pageIdx : Nat)
    (acc : List α) : List α :=
  if h1 : acc.length < maxComments then
    match service pageIdx with
    | .commentsDisabled => acc
    | .apiError => acc
    | .ok items hasNext =>
      if h2 : items.isEmpty then acc
      else
        if ¬hasNext then acc ++ items
        else if h3 : maxComments ≤ (acc ++ items).length then acc ++ items
        else fetchLoop service (pageIdx + 1) (acc ++ items)
  else acc
termination_by maxComments - acc.length
decreasing_by
  have hpos : 0 < items.length := by
    cases items with
    | nil => simp at h2
    | cons a t => simp
  simp only [List.length_append] at h3 ⊢
  omega

/-- One flattened comment record (src/analyze.py lines 179-184). -/
structure CommentRow where
  author : String
  text : String
  likeCount : Nat
  publishedAt : String
deriving DecidableEq

/-- The CSV column list of the comments file (src/analyze.py lines 179-184
and line 209). -/
def commentCols : List String := ["author", "text", "likeCount", "publishedAt"]

/-- The header line `to_csv(index=False)` writes for those columns. -/
def commentsHeader : String := String.intercalate "," commentCols

/-- The comments file written by the fetcher: a header line plus data rows. -/
structure CommentsCsv where
  header : String
  rows : List CommentRow
deriving DecidableEq

/-- `fetch_video_comments` (src/analyze.py lines 137-219) after the client
check: run the pagination loop; if no comments were collected, still write an
empty-but-well-formed CSV (header, zero rows) and return `False`
(lines 206-210); otherwise write the comments and return `True`. -/
def fetch_video_comments (service : Nat → CommentsApiResponse CommentRow) :
    CommentsCsv × Bool :=
  let comments := fetchLoop service 0 []
  if comments.isEmpty then ({ header := commentsHeader, rows := [] }, false)
  else ({ header := commentsHeader, rows := comments }, true)

/-- A mock comment service whose every page has `sz` items and always reports
a further page — `sz = 100` is the "infinite supply of full pages" service,
`sz = 99` a service returning slightly short pages with next-page tokens. -/
def constMock (sz : Nat) : Nat → CommentsApiResponse Unit :=
  fun _ => .ok (List.replicate sz ()) true

/-- A mock service that reports the comments-disabled error on every call. -/
def disabledMock : Nat → CommentsApiResponse CommentRow :=
  fun _ => .commentsDisabled

/-! ## Summarization stage (src/sentiment.py) -/

/-- src/sentiment.py line 18: the module-level LLM credential is assigned the
empty string literal — it is not read from the environment (`os.getenv` is
never called for it), even though line 119 tells the user to set
`OPENAI_API_KEY` in the `.env` file. -/
def OPENAI_API_KEY : String := ""

/-- One row of a video's metadata CSV (src/analyze.py lines 116-123, read
back by `get_video_metadata` in src/sentiment.py lines 92-105). -/
structure VideoMetadataRow where
  title : String
  channelTitle : String
  publishedAt : String
  viewCount : String
  likeCount : String
  commentCount : String
deriving DecidableEq

/-- pandas `df.sample(n)`, with the ambient randomness injected as a list of
row indices (in the source, a uniformly random permutation of the index
range): the sample is the rows at the first `n` selected indices. -/
def pandasSample {α : Type} (rows : List α) (n : Nat) (perm : List Nat) : List α :=
  (perm.take n).filterMap (fun i => rows.get? i)

/-- src/sentiment.py lines 127-129:
`sample_size = min(50, len(comments_df))` and
`sample_comments = comments_df.sample(n=sample_size) if sample_size > 0 else comments_df`. -/
def sampleComments {α : Type} (rows : List α) (perm : List Nat) : List α :=
  let sample_size := min 50 rows.length
  if 0 < sample_size then pandasSample rows sample_size perm else rows

/-- The `video_info` block of the prompt (src/sentiment.py lines 132-142;
the f-string's indentation whitespace is abbreviated). -/
def videoInfoText : Option VideoMetadataRow → String
  | some m =>
    "Video Title: " ++ m.title ++ "\nChannel: " ++ m.channelTitle ++
    "\nPublished: " ++ m.publishedAt ++ "\nView Count: " ++ m.viewCount ++
    "\nLike Count: " ++ m.likeCount ++ "\nComment Count: " ++ m.commentCount
  | none => "Video metadata not available."

/-- One rendered comment of the prompt (src/sentiment.py lines 145-150). -/
def commentLine (i : Nat) (c : CommentRow) : String :=
  "Comment " ++ toString (i + 1) ++ ":\n" ++ "Text: " ++ c.text ++ "\n" ++
  "Author: " ++ c.author ++ "\n" ++ "Likes: " ++ toString c.likeCount ++ "\n"

/-- The `comments_text` join (src/sentiment.py lines 144-151). -/
def commentsText (sample : List CommentRow) : String :=
  String.intercalate "\n" (sample.enum.map (fun p => commentLine p.1 p.2))

/-- The full prompt (src/sentiment.py lines 154-167; instruction text kept,
f-string indentation abbreviated). -/
def buildPrompt (meta : Option VideoMetadataRow) (total : Nat)
    (sample : List CommentRow) : String :=
  "Please analyze these YouTube video comments and provide insights:\n\n" ++
  videoInfoText meta ++
  "\n\nSAMPLE COMMENTS (out of " ++ toString total ++ " total comments):\n" ++
  commentsText sample ++
  "\n\nBased on these comments, please provide:\n" ++
  "1. A summary of the overall viewer sentiment and key themes\n" ++
  "2. Notable patterns or trends in the comments\n" ++
  "3. Suggestions for the content creator based on viewer feedback\n" ++
  "4. Any issues or concerns that might need addressing"

/-- `analyze_comments_with_openai` (src/sentiment.py lines 107-189).  The
module-level credential is passed explicitly as `key`; the OpenAI completion
endpoint is the oracle `llm` (`none` models a transport/service error, which
the source catches and converts to `None`).  The boolean records whether a
network request was issued.  If the credential is missing/empty, the function
returns `None` immediately with no network call (lines 118-120). -/
def analyze_comments_with_openai (key : String) (llm : String → Option String)
    (perm : List Nat) (comments_df : List CommentRow)
    (video_metadata : Option VideoMetadataRow) : Option String × Bool :=
  if key = "" then (none, false)
  else
    let sample_comments := sampleComments comments_df perm
    let prompt := buildPrompt video_metadata comments_df.length sample_comments
    match llm prompt with
    | some analysis => (some analysis, true)
    | none => (none, true)

/-- The analysis-result record returned by `process_comment_file`
(src/sentiment.py lines 240-245). -/
structure AnalysisRecord where
  video_id : String
  analysis_file : String
  comment_count : Nat
  timestamp : String
deriving DecidableEq

/-- `blob_name.split('_')[0]` (src/sentiment.py line 204): the prefix of the
blob name before its first underscore. -/
def videoIdFromBlob (blob_name : String) : String :=
  String.mk (blob_name.data.takeWhile (fun c => c ≠ '_'))

/-- The metadata blob name looked up by `get_video_metadata`
(src/sentiment.py line 95). -/
def metadataBlobName (video_id : String) : String :=
  video_id ++ "_metadata.csv"

/-- The analysis artifact name (src/sentiment.py line 226). -/
def analysisFilename (video_id timestamp : String) : String :=
  video_id ++ "_analysis_" ++ timestamp ++ ".txt"

/-- `process_comment_file` (src/sentiment.py lines 191-249).  The blob
container is modelled by two oracles: `commentsStore` is the
download-and-`read_csv` of the named comment blob, and `metaStore` is
`get_video_metadata`'s best-effort download-and-read of a named metadata blob
(`none` models any failure).  Returns the result record (or `None`) together
with the trace of blob names requested.  `if not openai_analysis` (line 221)
treats both `None` and the empty string as failure. -/
def process_comment_file (key : String) (llm : String → Option String)
    (perm : List Nat) (commentsStore : String → Option (List CommentRow))
    (metaStore : String → Option VideoMetadataRow)
    (timestamp : String) (blob_name : String) :
    Option AnalysisRecord × List String :=
  let video_id := videoIdFromBlob blob_name
  match commentsStore blob_name with
  | none => (none, [blob_name])
  | some comments_df =>
    let video_metadata := metaStore (metadataBlobName video_id)
    let requested := [blob_name, metadataBlobName video_id]
    match (analyze_comments_with_openai key llm perm comments_df video_metadata).1 with
    | none => (none, requested)
    | some analysis =>
      if analysis = "" then (none, requested)
      else
        (some { video_id := video_id,
                analysis_file := analysisFilename video_id timestamp,
                comment_count := comments_df.length,
                timestamp := timestamp },
         requested)

/-! ## Bridging lemmas between `String` and `List Char` -/

theorem string_mk_data (s : String) : String.mk s.data = s := rfl

theorem string_data_mk (l : List Char) : (String.mk l).data = l := rfl

theorem string_data_append (a b : String) : (a ++ b).data = a.data ++ b.data := rfl

/-! ## Lemmas about the regex search -/

/-- Any capture returned by the search is 11 characters of the class. -/
theorem searchSeg_valid {lit : List Char} : ∀ {s tok : List Char},
    searchSeg lit s = some tok → tok.length = 11 ∧ tok.all isIdChar = true := by
  intro s
  induction s with
  | nil => intro tok h; simp [searchSeg] at h
  | cons c t ih =>
    intro tok h
    rw [searchSeg] at h
    split at h
    · next hm =>
      obtain rfl : segTok lit (c :: t) = tok := by injection h
      simp only [segMatch, Bool.and_eq_true, beq_iff_eq] at hm
      exact ⟨hm.2.1, hm.2.2⟩
    · exact ih h

/-- A successful search needs at least `lit.length + 11` characters. -/
theorem searchSeg_some_length {lit : List Char} : ∀ {s tok : List Char},
    searchSeg lit s = some tok → lit.length + 11 ≤ s.length := by
  intro s
  induction s with
  | nil => intro tok h; simp [searchSeg] at h
  | cons c t ih =>
    intro tok h
    rw [searchSeg] at h
    split at h
    · next hm =>
      simp only [segMatch, Bool.and_eq_true, beq_iff_eq] at hm
      have hp : lit <+: (c :: t) := List.isPrefixOf_iff_prefix.mp hm.1
      have hle : lit.length ≤ (c :: t).length := hp.length_le
      have htok : (segTok lit (c :: t)).length = 11 := hm.2.1
      simp only [segTok, List.length_take, List.length_drop] at htok
      omega
    · have := ih h
      simp only [List.length_cons]
      omega

/-- Scanning past a position where the first literal character mismatches. -/
theorem searchSeg_cons_ne {l0 c : Char} (lt t : List Char) (h : (l0 == c) = false) :
    searchSeg (l0 :: lt) (c :: t) = searchSeg (l0 :: lt) t := by
  have hm : segMatch (l0 :: lt) (c :: t) = false := by
    simp [segMatch, List.isPrefixOf, h]
  simp [searchSeg, hm]

/-- A match right at the head: the literal followed by a valid token. -/
theorem searchSeg_at_head {l0 : Char} {lt tok : List Char} (suf : List Char)
    (h11 : tok.length = 11) (hall : tok.all isIdChar = true) :
    searchSeg (l0 :: lt) (l0 :: (lt ++ (tok ++ suf))) = some tok := by
  have hsh : l0 :: (lt ++ (tok ++ suf)) = (l0 :: lt) ++ (tok ++ suf) := by
    simp
  have htok : segTok (l0 :: lt) (l0 :: (lt ++ (tok ++ suf))) = tok := by
    rw [hsh]
    simp only [segTok]
    rw [List.drop_left, List.take_left' h11]
  have hm : segMatch (l0 :: lt) (l0 :: (lt ++ (tok ++ suf))) = true := by
    simp only [segMatch, htok, h11, hall, beq_self_eq_true, Bool.and_true]
    rw [hsh]
    simp [ List.isPrefixOf_iff_prefix]
  rw [searchSeg, if_pos hm, htok]

/-- If the string contains the literal followed by a valid 11-character
token anywhere, the scan finds some match (at the leftmost matching
position). -/
theorem searchSeg_isSome_of_seg {l0 : Char} {lt tok : List Char} (suf : List Char)
    (h11 : tok.length = 11) (hall : tok.all isIdChar = true) :
    ∀ a : List Char, (searchSeg (l0 :: lt) (a ++ ((l0 :: lt) ++ (tok ++ suf)))).isSome = true := by
  intro a
  induction a with
  | nil =>
    rw [List.nil_append, List.cons_append]
    rw [searchSeg_at_head suf h11 hall]
    rfl
  | cons c a' ih =>
    rw [List.cons_append, searchSeg]
    by_cases hm : segMatch (l0 :: lt) (c :: (a' ++ ((l0 :: lt) ++ (tok ++ suf)))) = true
    · rw [if_pos hm]
      rfl
    · rw [if_neg hm]
      exact ih

/-! ## Lemmas about the watch-URL branch on plain tokens -/

/-- A string containing neither `:` nor `/` is left unchanged by the scheme
split, has an empty netloc, and hence never enters the watch-URL branch. -/
theorem watchV_none_of_plain {l : List Char} (h : ∀ c ∈ l, c ≠ ':' ∧ c ≠ '/') :
    watchV l = none := by
  have hcolon : l.any (fun c => c == ':') = false := by
    rw [Bool.eq_false_iff]
    intro hany
    obtain ⟨c, hc, he⟩ := List.any_eq_true.mp hany
    exact (h c hc).1 (eq_of_beq he)
  have hs : splitScheme l = l := by simp [splitScheme, hcolon]
  have hns : netlocSplit l = ([], l) := by
    unfold netlocSplit
    have hne : l.take 2 ≠ ['/', '/'] := by
      cases l with
      | nil => simp
      | cons c t =>
        intro he
        rw [List.take_cons (by omega)] at he
        have hcc : c = '/' := (List.cons.injEq _ _ _ _ ▸ he).1
        exact (h c (by simp)).2 hcc
    simp [hne]
  have hc : containsSub "youtube.com".data ([] : List Char) = false := by decide
  unfold watchV pyNetloc
  rw [hs, hns]
  simp [hc]

/-- A string of class characters only never enters the watch-URL branch. -/
theorem watchV_none_of_idChars {l : List Char} (h : l.all isIdChar = true) :
    watchV l = none := by
  apply watchV_none_of_plain
  intro c hc
  have hcid : isIdChar c = true := List.all_eq_true.mp h c hc
  constructor
  · intro he
    rw [he] at hcid
    exact absurd hcid (by decide)
  · intro he
    rw [he] at hcid
    exact absurd hcid (by decide)

/-- The bare-token branch: any full match of `^[a-zA-Z0-9_-]{11}$` (including
the trailing-newline acceptance) is returned unchanged. -/
theorem extractL_of_validId {l : List Char} (h : validId l = true) : extractL l = some l := by
  have h' := h
  simp only [validId, Bool.or_eq_true, Bool.and_eq_true, beq_iff_eq] at h'
  have hlen : l.length = 11 ∨ l.length = 12 := by
    rcases h' with ⟨h11, _⟩ | ⟨h12, _⟩
    · exact Or.inl h11
    · exact Or.inr h12
  have h1 : searchSeg ybLit l = none := by
    cases hs : searchSeg ybLit l with
    | none => rfl
    | some tok =>
      have hle := searchSeg_some_length hs
      have hy : ybLit.length = 9 := by decide
      rcases hlen with hl | hl <;> omega
  have h2 : searchSeg shortsLit l = none := by
    cases hs : searchSeg shortsLit l with
    | none => rfl
    | some tok =>
      have hle := searchSeg_some_length hs
      have hy : shortsLit.length = 19 := by decide
      rcases hlen with hl | hl <;> omega
  have h3 : watchV l = none := by
    rcases h' with ⟨_, hall⟩ | ⟨_, htake, hdrop⟩
    · exact watchV_none_of_idChars hall
    · apply watchV_none_of_plain
      intro c hc
      rw [← List.take_append_drop 11 l] at hc
      rcases List.mem_append.mp hc with hc1 | hc2
      · have hcid : isIdChar c = true := List.all_eq_true.mp htake c hc1
        constructor
        · intro he
          rw [he] at hcid
          exact absurd hcid (by decide)
        · intro he
          rw [he] at hcid
          exact absurd hcid (by decide)
      · rw [hdrop] at hc2
        have hcn : c = '\n' := by simpa using hc2
        subst hcn
        exact ⟨by decide, by decide⟩
  rw [extractL, h1, h2, h3, if_pos h]

example : extract_video_id "https://youtu.be/dQw4w9WgXcQ?si=abc" = some "dQw4w9WgXcQ" := by decide
example : extract_video_id "https://www.youtube.com/watch?v=dQw4w9WgXcQ&t=10s" = some "dQw4w9WgXcQ" := by decide
example : extract_video_id "https://youtube.com/watch?v=abc" = some "abc" := by decide
example : extract_video_id "not a url" = none := by decide
example : extract_video_id "dQw4w9WgXcQ" = some "dQw4w9WgXcQ" := by decide
example : extract_video_id "dQw4w9WgXcQ\n" = some "dQw4w9WgXcQ\n" := by decide
example : extract_video_id "dQw4w9WgXcQ\n\n" = none := by decide
example : extract_video_id "https://www.youtube.com/shorts/dQw4w9WgXcQ" = some "dQw4w9WgXcQ" := by decide

/-! ## Claim C1 — the 11-character invariant of resolved identifiers -/

/-- C1 counterexample: the resolver returns `"abc"` (3 characters, not 11)
for a watch-URL whose `v` parameter is short — the `v` query-parameter branch
returns its value unvalidated, so the claimed invariant fails exactly there. -/
theorem claim_C1_counterexample :
    extract_video_id "https://youtube.com/watch?v=abc" = some "abc" ∧
    ("abc" : String).data.length ≠ 11 := by
  constructor
  · decide
  · decide

/-- C1 (amended): every non-null identifier returned by the resolver either
is exactly 11 characters matching `[a-zA-Z0-9_-]{11}`, or is such an
11-character token followed by one trailing newline (12 characters, accepted
by the bare-token branch because Python's `$` matches before a trailing
newline), or was produced by the watch-URL `v` query-parameter branch, which
returns the parameter's first value unvalidated. -/
theorem claim_C1_theorem (url tok : String) (h : extract_video_id url = some tok) :
    (tok.data.length = 11 ∧ tok.data.all isIdChar = true) ∨
    (tok.data.length = 12 ∧ (tok.data.take 11).all isIdChar = true ∧
      tok.data.drop 11 = ['\n']) ∨
    watch_v_value url = some tok := by
  unfold extract_video_id at h
  obtain ⟨t, ht, rfl⟩ := Option.map_eq_some'.mp h
  rw [extractL] at ht
  cases h1 : searchSeg ybLit url.data with
  | some tok' =>
    rw [h1] at ht
    obtain rfl : tok' = t := by injection ht
    exact Or.inl (searchSeg_valid h1)
  | none =>
    rw [h1] at ht
    cases h2 : searchSeg shortsLit url.data with
    | some tok' =>
      rw [h2] at ht
      obtain rfl : tok' = t := by injection ht
      exact Or.inl (searchSeg_valid h2)
    | none =>
      rw [h2] at ht
      cases h3 : watchV url.data with
      | some v =>
        rw [h3] at ht
        obtain rfl : v = t := by injection ht
        exact Or.inr (Or.inr (by rw [watch_v_value, h3]; rfl))
      | none =>
        rw [h3] at ht
        have ht' : (if validId url.data = true then some url.data else none) = some t := ht
        by_cases hv : validId url.data = true
        · rw [if_pos hv] at ht'
          obtain rfl : url.data = t := by injection ht'
          simp only [validId, Bool.or_eq_true, Bool.and_eq_true, beq_iff_eq] at hv
          rcases hv with ⟨h11, hall⟩ | ⟨h12, htake, hdrop⟩
          · exact Or.inl ⟨h11, hall⟩
          · exact Or.inr (Or.inl ⟨h12, htake, hdrop⟩)
        · rw [if_neg hv] at ht'
          exact absurd ht' (by simp)

/-- C1 witness: the amended theorem applied to a short-link input. -/
theorem claim_C1_witness :
    extract_video_id "https://youtu.be/a1b2c3d4e5f" = some "a1b2c3d4e5f" ∧
    ((("a1b2c3d4e5f" : String).data.length = 11 ∧
       ("a1b2c3d4e5f" : String).data.all isIdChar = true) ∨
     (("a1b2c3d4e5f" : String).data.length = 12 ∧
       (("a1b2c3d4e5f" : String).data.take 11).all isIdChar = true ∧
       ("a1b2c3d4e5f" : String).data.drop 11 = ['\n']) ∨
     watch_v_value "https://youtu.be/a1b2c3d4e5f" = some "a1b2c3d4e5f") := by
  have h : extract_video_id "https://youtu.be/a1b2c3d4e5f" = some "a1b2c3d4e5f" := by decide
  exact ⟨h, claim_C1_theorem _ _ h⟩

/-! ## Claim C2 — idempotence of the resolver on successes -/

/-- C2 counterexample: `resolve("https://youtube.com/watch?v=abc")` is the
non-null `"abc"`, but `resolve("abc")` is null, so
`resolve(resolve(x)) ≠ resolve(x)` for this success. -/
theorem claim_C2_counterexample :
    extract_video_id "https://youtube.com/watch?v=abc" = some "abc" ∧
    extract_video_id "abc" = none := by
  constructor
  · decide
  · decide

/-- C2 (amended): any 11-character token matching `[a-zA-Z0-9_-]{11}` passed
directly is returned unchanged; idempotence therefore holds for every success
whose result matches that pattern (the watch-URL `v` branch can return values
outside the pattern, and a second resolve of such a value yields null). -/
theorem claim_C2_theorem (t : String) (h11 : t.data.length = 11)
    (hall : t.data.all isIdChar = true) : extract_video_id t = some t := by
  have hv : validId t.data = true := by
    simp only [validId, Bool.or_eq_true, Bool.and_eq_true, beq_iff_eq]
    exact Or.inl ⟨h11, hall⟩
  unfold extract_video_id
  rw [extractL_of_validId hv]
  simp [string_mk_data t]

/-- C2 witness: the amended theorem at a concrete 11-character token. -/
theorem claim_C2_witness :
    ("a_b-c123XYZ" : String).data.length = 11 ∧
    ("a_b-c123XYZ" : String).data.all isIdChar = true ∧
    extract_video_id "a_b-c123XYZ" = some "a_b-c123XYZ" :=
  ⟨by decide, by decide, claim_C2_theorem "a_b-c123XYZ" (by decide) (by decide)⟩

/-! ## Claim C9 — malformed inputs resolve to null, totally -/

/-- C9: the resolver is a total function (it is defined by structural
recursion, so it cannot raise), and on malformed input — the empty string,
non-URL garbage, and bare tokens of 10 or 12 class characters — it returns
`none`. -/
theorem claim_C9_theorem :
    extract_video_id "" = none ∧ extract_video_id "not a url" = none ∧
    (∀ t : String, t.data.all isIdChar = true →
      t.data.length = 10 ∨ t.data.length = 12 → extract_video_id t = none) := by
  refine ⟨by decide, by decide, ?_⟩
  intro t hall hlen
  have hne : t.data.length ≠ 11 := by omega
  have h1 : searchSeg ybLit t.data = none := by
    cases hs : searchSeg ybLit t.data with
    | none => rfl
    | some tok =>
      have := searchSeg_some_length hs
      have hy : ybLit.length = 9 := by decide
      omega
  have h2 : searchSeg shortsLit t.data = none := by
    cases hs : searchSeg shortsLit t.data with
    | none => rfl
    | some tok =>
      have := searchSeg_some_length hs
      have hy : shortsLit.length = 19 := by decide
      omega
  have h3 : watchV t.data = none := watchV_none_of_idChars hall
  have h4 : validId t.data = false := by
    rcases hlen with h10 | h12
    · simp [validId, h10]
    · have hd : t.data.drop 11 ≠ ['\n'] := by
        intro he
        have hmem : '\n' ∈ t.data := by
          apply List.drop_subset 11 t.data
          rw [he]
          simp
        have hcid := List.all_eq_true.mp hall '\n' hmem
        exact absurd hcid (by decide)
      have hb : (t.data.drop 11 == ['\n']) = false := beq_eq_false_iff_ne.mpr hd
      simp [validId, h12, hb]
  unfold extract_video_id
  rw [extractL, h1, h2, h3, h4]
  rfl

/-- C9 witness: the universal part applied to concrete 10- and 12-character
tokens. -/
theorem claim_C9_witness :
    ("abcde12345" : String).data.all isIdChar = true ∧
    ("abcde12345" : String).data.length = 10 ∧
    extract_video_id "abcde12345" = none :=
  ⟨by decide, by decide,
    claim_C9_theorem.2.2 "abcde12345" (by decide) (Or.inl (by decide))⟩

/-! ## Claim C8 — short-link and shorts segments resolve to the captured token -/

/-- C8 counterexample: a shorts URL whose query parameter itself contains a
`youtu.be/<11 chars>` segment resolves to the `youtu.be` capture, not the
shorts token — the `youtu.be` pattern is searched first, anywhere in the
string.  So "for every string containing a shorts segment the resolver
returns that captured token, regardless of surrounding query parameters" is
false as stated. -/
theorem claim_C8_counterexample :
    extract_video_id
        "https://www.youtube.com/shorts/AAAAAAAAAAA?next=youtu.be/BBBBBBBBBBB"
      = some "BBBBBBBBBBB" ∧
    some ("BBBBBBBBBBB" : String) ≠ some ("AAAAAAAAAAA" : String) := by
  constructor
  · decide
  · decide

/-- C8 (amended): every string containing a `youtu.be/<token>` segment with
an 11-character class token resolves to a captured 11-character class token —
the one at the leftmost `youtu.be` match — whatever surrounds the segment; on
the canonical short-link form the captured token is exactly the segment's
token, for every suffix.  A string containing a shorts segment resolves to a
captured 11-character token provided it contains no `youtu.be` match (which
is searched first and would win, as the counterexample shows); on the
canonical shorts form the capture is exactly the segment's token.

In particular `resolve("https://youtu.be/dQw4w9WgXcQ?si=abc") = "dQw4w9WgXcQ"`
(see the witness). -/
theorem claim_C8_theorem :
    (∀ pre t suf : String, t.data.length = 11 → t.data.all isIdChar = true →
      ∃ tok : String, extract_video_id (pre ++ "youtu.be/" ++ t ++ suf) = some tok ∧
        tok.data.length = 11 ∧ tok.data.all isIdChar = true) ∧
    (∀ t suf : String, t.data.length = 11 → t.data.all isIdChar = true →
      extract_video_id ("https://youtu.be/" ++ t ++ suf) = some t) ∧
    (∀ pre t suf : String, t.data.length = 11 → t.data.all isIdChar = true →
      searchSeg ybLit (pre ++ "youtube.com/shorts/" ++ t ++ suf).data = none →
      ∃ tok : String,
        extract_video_id (pre ++ "youtube.com/shorts/" ++ t ++ suf) = some tok ∧
        tok.data.length = 11 ∧ tok.data.all isIdChar = true) ∧
    (∀ t suf : String, t.data.length = 11 → t.data.all isIdChar = true →
      searchSeg ybLit ("https://www.youtube.com/shorts/" ++ t ++ suf).data = none →
      extract_video_id ("https://www.youtube.com/shorts/" ++ t ++ suf) = some t) := by
  refine ⟨?_, ?_, ?_, ?_⟩
  · intro pre t suf h11 hall
    have hd : (pre ++ "youtu.be/" ++ t ++ suf).data
        = pre.data ++ (('y' :: "outu.be/".data) ++ (t.data ++ suf.data)) := by
      rw [string_data_append, string_data_append, string_data_append]
      have hyb2 : ("youtu.be/" : String).data = 'y' :: "outu.be/".data := rfl
      rw [hyb2]
      simp only [List.append_assoc, List.cons_append]
    have hsome : (searchSeg ybLit (pre ++ "youtu.be/" ++ t ++ suf).data).isSome = true := by
      rw [hd]
      have hyb : ybLit = 'y' :: "outu.be/".data := rfl
      rw [hyb]
      exact searchSeg_isSome_of_seg suf.data h11 hall pre.data
    obtain ⟨tokL, htokL⟩ := Option.isSome_iff_exists.mp hsome
    refine ⟨String.mk tokL, ?_, ?_, ?_⟩
    · unfold extract_video_id
      rw [extractL, htokL]
      rfl
    · rw [string_data_mk]
      exact (searchSeg_valid htokL).1
    · rw [string_data_mk]
      exact (searchSeg_valid htokL).2
  · intro t suf h11 hall
    have hdata : ("https://youtu.be/" ++ t ++ suf).data
        = 'h' :: 't' :: 't' :: 'p' :: 's' :: ':' :: '/' :: '/' ::
          ('y' :: ("outu.be/".data ++ (t.data ++ suf.data))) := by
      rw [string_data_append, string_data_append]
      have he : ("https://youtu.be/" : String).data
          = ['h', 't', 't', 'p', 's', ':', '/', '/'] ++ ('y' :: "outu.be/".data) := by decide
      rw [he]
      simp
    have hyb : ybLit = 'y' :: "outu.be/".data := by decide
    have hsearch : searchSeg ybLit ("https://youtu.be/" ++ t ++ suf).data = some t.data := by
      rw [hdata, hyb]
      rw [searchSeg_cons_ne _ _ (by decide : (('y' : Char) == 'h') = false)]
      rw [searchSeg_cons_ne _ _ (by decide : (('y' : Char) == 't') = false)]
      rw [searchSeg_cons_ne _ _ (by decide : (('y' : Char) == 't') = false)]
      rw [searchSeg_cons_ne _ _ (by decide : (('y' : Char) == 'p') = false)]
      rw [searchSeg_cons_ne _ _ (by decide : (('y' : Char) == 's') = false)]
      rw [searchSeg_cons_ne _ _ (by decide : (('y' : Char) == ':') = false)]
      rw [searchSeg_cons_ne _ _ (by decide : (('y' : Char) == '/') = false)]
      rw [searchSeg_cons_ne _ _ (by decide : (('y' : Char) == '/') = false)]
      exact searchSeg_at_head _ h11 hall
    unfold extract_video_id
    rw [extractL, hsearch]
    simp [string_mk_data t]
  · intro pre t suf h11 hall hyn
    have hd : (pre ++ "youtube.com/shorts/" ++ t ++ suf).data
        = pre.data ++ (('y' :: "outube.com/shorts/".data) ++ (t.data ++ suf.data)) := by
      rw [string_data_append, string_data_append, string_data_append]
      have hsh2 : ("youtube.com/shorts/" : String).data
          = 'y' :: "outube.com/shorts/".data := rfl
      rw [hsh2]
      simp only [List.append_assoc, List.cons_append]
    have hsome : (searchSeg shortsLit
        (pre ++ "youtube.com/shorts/" ++ t ++ suf).data).isSome = true := by
      rw [hd]
      have hsh : shortsLit = 'y' :: "outube.com/shorts/".data := rfl
      rw [hsh]
      exact searchSeg_isSome_of_seg suf.data h11 hall pre.data
    obtain ⟨tokL, htokL⟩ := Option.isSome_iff_exists.mp hsome
    refine ⟨String.mk tokL, ?_, ?_, ?_⟩
    · unfold extract_video_id
      rw [extractL, hyn, htokL]
      rfl
    · rw [string_data_mk]
      exact (searchSeg_valid htokL).1
    · rw [string_data_mk]
      exact (searchSeg_valid htokL).2
  · intro t suf h11 hall hyn
    have hdata : ("https://www.youtube.com/shorts/" ++ t ++ suf).data
        = 'h' :: 't' :: 't' :: 'p' :: 's' :: ':' :: '/' :: '/' :: 'w' :: 'w' :: 'w' :: '.' ::
          ('y' :: ("outube.com/shorts/".data ++ (t.data ++ suf.data))) := by
      rw [string_data_append, string_data_append]
      have he : ("https://www.youtube.com/shorts/" : String).data
          = ['h', 't', 't', 'p', 's', ':', '/', '/', 'w', 'w', 'w', '.']
            ++ ('y' :: "outube.com/shorts/".data) := by decide
      rw [he]
      simp
    have hsh : shortsLit = 'y' :: "outube.com/shorts/".data := by decide
    have hsearch : searchSeg shortsLit ("https://www.youtube.com/shorts/" ++ t ++ suf).data
        = some t.data := by
      rw [hdata, hsh]
      rw [searchSeg_cons_ne _ _ (by decide : (('y' : Char) == 'h') = false)]
      rw [searchSeg_cons_ne _ _ (by decide : (('y' : Char) == 't') = false)]
      rw [searchSeg_cons_ne _ _ (by decide : (('y' : Char) == 't') = false)]
      rw [searchSeg_cons_ne _ _ (by decide : (('y' : Char) == 'p') = false)]
      rw [searchSeg_cons_ne _ _ (by decide : (('y' : Char) == 's') = false)]
      rw [searchSeg_cons_ne _ _ (by decide : (('y' : Char) == ':') = false)]
      rw [searchSeg_cons_ne _ _ (by decide : (('y' : Char) == '/') = false)]
      rw [searchSeg_cons_ne _ _ (by decide : (('y' : Char) == '/') = false)]
      rw [searchSeg_cons_ne _ _ (by decide : (('y' : Char) == 'w') = false)]
      rw [searchSeg_cons_ne _ _ (by decide : (('y' : Char) == 'w') = false)]
      rw [searchSeg_cons_ne _ _ (by decide : (('y' : Char) == 'w') = false)]
      rw [searchSeg_cons_ne _ _ (by decide : (('y' : Char) == '.') = false)]
      exact searchSeg_at_head _ h11 hall
    unfold extract_video_id
    rw [extractL, hyn, hsearch]
    simp [string_mk_data t]

/-- C8 witness: all four parts of the amended theorem at concrete inputs,
including the spec's own scenario `"https://youtu.be/dQw4w9WgXcQ?si=abc"`. -/
theorem claim_C8_witness :
    (∃ tok : String,
      extract_video_id ("see " ++ "youtu.be/" ++ "dQw4w9WgXcQ" ++ " now") = some tok ∧
      tok.data.length = 11 ∧ tok.data.all isIdChar = true) ∧
    extract_video_id "https://youtu.be/dQw4w9WgXcQ?si=abc" = some "dQw4w9WgXcQ" ∧
    (∃ tok : String,
      extract_video_id ("x " ++ "youtube.com/shorts/" ++ "a0a0a0a0a0a" ++ "?f=1")
        = some tok ∧
      tok.data.length = 11 ∧ tok.data.all isIdChar = true) ∧
    extract_video_id ("https://www.youtube.com/shorts/" ++ "a0a0a0a0a0a" ++ "?f=1")
      = some "a0a0a0a0a0a" := by
  refine ⟨?_, ?_, ?_, ?_⟩
  · exact claim_C8_theorem.1 "see " "dQw4w9WgXcQ" " now" (by decide) (by decide)
  · have h := claim_C8_theorem.2.1 "dQw4w9WgXcQ" "?si=abc" (by decide) (by decide)
    have he : ("https://youtu.be/" ++ "dQw4w9WgXcQ" ++ "?si=abc" : String)
        = "https://youtu.be/dQw4w9WgXcQ?si=abc" := by decide
    rw [he] at h
    exact h
  · exact claim_C8_theorem.2.2.1 "x " "a0a0a0a0a0a" "?f=1" (by decide) (by decide) (by decide)
  · exact claim_C8_theorem.2.2.2 "a0a0a0a0a0a" "?f=1" (by decide) (by decide) (by decide)

/-! ## Lemmas about the pagination loop -/

/-- The loop returns the accumulator unchanged once the cap is reached. -/
theorem fetchLoop_stop {α : Type} (service : Nat → CommentsApiResponse α)
    (pageIdx : Nat) (acc : List α) (h : ¬ acc.length < maxComments) :
    fetchLoop service pageIdx acc = acc := by
  rw [fetchLoop.eq_def, dif_neg h]

/-- The loop stops (keeping the accumulator) on a comments-disabled error. -/
theorem fetchLoop_disabled {α : Type} (service : Nat → CommentsApiResponse α)
    (pageIdx : Nat) (acc : List α) (hlt : acc.length < maxComments)
    (h : service pageIdx = .commentsDisabled) :
    fetchLoop service pageIdx acc = acc := by
  rw [fetchLoop.eq_def, dif_pos hlt, h]

/-- One unfolding of the loop on a non-empty page with a next-page token. -/
theorem fetchLoop_step {α : Type} (service : Nat → CommentsApiResponse α)
    (pageIdx : Nat) (acc items : List α)
    (hlt : acc.length < maxComments) (hresp : service pageIdx = .ok items true)
    (hne : items ≠ []) :
    fetchLoop service pageIdx acc =
      if maxComments ≤ (acc ++ items).length then acc ++ items
      else fetchLoop service (pageIdx + 1) (acc ++ items) := by
  have hie : ¬ (items.isEmpty = true) := by simpa using hne
  rw [fetchLoop.eq_def, dif_pos hlt, hresp]
  simp [hie]

/-- Running the constant `sz`-page mock one step, in terms of replicate. -/
theorem constMock_step (sz pageIdx k : Nat) (hsz : sz ≠ 0)
    (h1 : k < maxComments) (h2 : k + sz < maxComments) :
    fetchLoop (constMock sz) pageIdx (List.replicate k ()) =
      fetchLoop (constMock sz) (pageIdx + 1) (List.replicate (k + sz) ()) := by
  rw [fetchLoop_step (constMock sz) pageIdx _ (List.replicate sz ()) (by simpa using h1) rfl
    (by simpa using hsz)]
  rw [if_neg (by simp; omega)]
  rw [← List.replicate_add]

/-- Running the constant `sz`-page mock's final step, where the page crosses
the cap. -/
theorem constMock_last (sz pageIdx k : Nat) (hsz : sz ≠ 0)
    (h1 : k < maxComments) (h2 : maxComments ≤ k + sz) :
    fetchLoop (constMock sz) pageIdx (List.replicate k ()) = List.replicate (k + sz) () := by
  rw [fetchLoop_step (constMock sz) pageIdx _ (List.replicate sz ()) (by simpa using h1) rfl
    (by simpa using hsz)]
  rw [if_pos (by simp; omega)]
  rw [← List.replicate_add]

/-- Under a page-size bound of 100, the loop never accumulates more than
599 comments (the cap may be overshot by at most one page less one). -/
theorem fetchLoop_length_le {α : Type} (service : Nat → CommentsApiResponse α)
    (hp : ∀ n, pageLen (service n) ≤ 100) :
    ∀ (m pageIdx : Nat) (acc : List α), maxComments - acc.length ≤ m →
      acc.length ≤ 599 → (fetchLoop service pageIdx acc).length ≤ 599 := by
  intro m
  induction m with
  | zero =>
    intro pageIdx acc hm hacc
    have hstop : ¬ acc.length < maxComments := by
      simp only [maxComments] at hm ⊢
      omega
    rw [fetchLoop_stop _ _ _ hstop]
    exact hacc
  | succ m ih =>
    intro pageIdx acc hm hacc
    by_cases hlt : acc.length < maxComments
    · rw [fetchLoop.eq_def, dif_pos hlt]
      split
      · exact hacc
      · exact hacc
      · next items hasNext heq =>
        have hil : items.length ≤ 100 := by
          have h := hp pageIdx
          rw [heq] at h
          simpa [pageLen] using h
        by_cases hie : items.isEmpty = true
        · rw [dif_pos hie]
          exact hacc
        · rw [dif_neg hie]
          have hipos : 0 < items.length := by
            cases items with
            | nil => simp at hie
            | cons a t => simp
          by_cases hnx : hasNext = true
        -- with a next token, either the cap is crossed or the loop recurses
          · subst hnx
            rw [if_neg (by simp)]
            by_cases hcap : maxComments ≤ (acc ++ items).length
            · rw [dif_pos hcap]
              simp only [List.length_append, maxComments] at hlt ⊢
              omega
            · rw [dif_neg hcap]
              apply ih
              · simp only [List.length_append, maxComments] at hm hcap ⊢
                omega
              · simp only [List.length_append, maxComments] at hcap ⊢
                omega
          · have hnx' : hasNext = false := by
              cases hasNext with
              | false => rfl
              | true => exact absurd rfl hnx
            subst hnx'
            rw [if_pos (by simp)]
            simp only [List.length_append, maxComments] at hlt ⊢
            omega
    · rw [fetchLoop_stop _ _ _ hlt]
      exact hacc

/-! ## Claim C3 — the 500-comment cap -/

/-- C3 counterexample: a service whose pages all carry 99 items (within the
API's 100-item page bound) and always report a next page drives the fetcher
to 594 accumulated comments — more than the configured cap of 500, because a
whole page is appended before the cap is re-checked. -/
theorem claim_C3_counterexample :
    (∀ n, pageLen (constMock 99 n) ≤ 100) ∧
    (fetchLoop (constMock 99) 0 []).length = 594 ∧
    ¬ (fetchLoop (constMock 99) 0 []).length ≤ 500 := by
  have hlen : (fetchLoop (constMock 99) 0 []).length = 594 := by
    have h0 : (([] : List Unit)) = List.replicate 0 () := rfl
    rw [h0]
    rw [constMock_step 99 0 0 (by omega) (by decide) (by decide)]
    rw [constMock_step 99 1 99 (by omega) (by decide) (by decide)]
    rw [constMock_step 99 2 198 (by omega) (by decide) (by decide)]
    rw [constMock_step 99 3 297 (by omega) (by decide) (by decide)]
    rw [constMock_step 99 4 396 (by omega) (by decide) (by decide)]
    rw [constMock_last 99 5 495 (by omega) (by decide) (by decide)]
    rw [List.length_replicate]
  exact ⟨fun n => by simp [constMock, pageLen], hlen, by omega⟩

/-- C3 (amended): with pages bounded by the API page size of 100, the fetcher
accumulates fewer than cap + page size comments (at most 599) — but not
always at most 500 — and against a service that always has more *full*
pages of 100 it halts with exactly 500 comments. -/
theorem claim_C3_theorem :
    (∀ (α : Type) (service : Nat → CommentsApiResponse α),
      (∀ n, pageLen (service n) ≤ 100) → (fetchLoop service 0 []).length ≤ 599) ∧
    (fetchLoop (constMock 100) 0 []).length = 500 := by
  constructor
  · intro α service hp
    exact fetchLoop_length_le service hp maxComments 0 [] (by simp) (by simp)
  · have h0 : (([] : List Unit)) = List.replicate 0 () := rfl
    rw [h0]
    rw [constMock_step 100 0 0 (by omega) (by decide) (by decide)]
    rw [constMock_step 100 1 100 (by omega) (by decide) (by decide)]
    rw [constMock_step 100 2 200 (by omega) (by decide) (by decide)]
    rw [constMock_step 100 3 300 (by omega) (by decide) (by decide)]
    rw [constMock_last 100 4 400 (by omega) (by decide) (by decide)]
    rw [List.length_replicate]

/-- C3 witness: the page-size hypothesis of the amended theorem discharged at
the 99-item mock. -/
theorem claim_C3_witness :
    (∀ n, pageLen (constMock 99 n) ≤ 100) ∧
    (fetchLoop (constMock 99) 0 []).length ≤ 599 :=
  ⟨fun n => by simp [constMock, pageLen],
    claim_C3_theorem.1 Unit (constMock 99) (fun n => by simp [constMock, pageLen])⟩

/-! ## Claim C6 — zero comments: empty well-formed file, failure returned -/

/-- C6: whenever the pagination yields zero comments — in particular when the
service reports the comments-disabled error on the first request — the
fetcher still writes a tabular file whose header is exactly
`author,text,likeCount,publishedAt` with zero data rows, and returns `False`
to the caller. -/
theorem claim_C6_theorem :
    (∀ service : Nat → CommentsApiResponse CommentRow,
      fetchLoop service 0 [] = [] →
      fetch_video_comments service
        = ({ header := "author,text,likeCount,publishedAt", rows := [] }, false)) ∧
    fetch_video_comments disabledMock
      = ({ header := "author,text,likeCount,publishedAt", rows := [] }, false) := by
  have hh : commentsHeader = "author,text,likeCount,publishedAt" := by decide
  have hgen : ∀ service : Nat → CommentsApiResponse CommentRow,
      fetchLoop service 0 [] = [] →
      fetch_video_comments service
        = ({ header := "author,text,likeCount,publishedAt", rows := [] }, false) := by
    intro service h
    unfold fetch_video_comments
    rw [h, hh]
    rfl
  have hdis : fetchLoop disabledMock 0 [] = [] :=
    fetchLoop_disabled disabledMock 0 [] (by decide) rfl
  exact ⟨hgen, hgen disabledMock hdis⟩

/-- C6 witness: the universally quantified part applied to the
comments-disabled mock service. -/
theorem claim_C6_witness :
    fetchLoop disabledMock 0 [] = [] ∧
    fetch_video_comments disabledMock
      = ({ header := "author,text,likeCount,publishedAt", rows := [] }, false) := by
  have hdis : fetchLoop disabledMock 0 [] = [] :=
    fetchLoop_disabled disabledMock 0 [] (by decide) rfl
  exact ⟨hdis, claim_C6_theorem.1 disabledMock hdis⟩

/-! ## Claim C4 — the LLM credential -/

/-- C4: with the module-level credential constant of src/sentiment.py
(line 18, the hardcoded empty string), summarization returns `None`
immediately and issues no network request, for every endpoint behavior and
every input — the credential is never sourced from the environment, so even a
populated `OPENAI_API_KEY` environment variable cannot enable summarization.
This contradicts the code's own guidance ("Please set OPENAI_API_KEY in your
.env file") and the spec's configuration surface, which is why the claim is a
code bug rather than a spec error. -/
theorem claim_C4_theorem (llm : String → Option String) (perm : List Nat)
    (comments_df : List CommentRow) (video_metadata : Option VideoMetadataRow) :
    analyze_comments_with_openai OPENAI_API_KEY llm perm comments_df video_metadata
      = (none, false) := by
  simp [analyze_comments_with_openai, OPENAI_API_KEY]

/-! ## Lemmas about sampling -/

/-- Looking up every index of a list in order returns the list. -/
theorem filterMap_get_range {α : Type} (rows : List α) :
    (List.range rows.length).filterMap (fun i => rows.get? i) = rows := by
  induction rows with
  | nil => simp
  | cons a t ih =>
    rw [List.length_cons, List.range_succ_eq_map, List.filterMap_cons]
    simp only [List.get?_cons_zero]
    rw [List.filterMap_map]
    have hcomp : ((fun i => (a :: t).get? i) ∘ Nat.succ) = fun i => t.get? i := by
      funext i
      simp
    rw [hcomp, ih]

/-- `filterMap` by index lookup loses nothing when all indices are in
range. -/
theorem filterMap_get_length {α : Type} (rows : List α) :
    ∀ (l : List Nat), (∀ i ∈ l, i < rows.length) →
      (l.filterMap (fun i => rows.get? i)).length = l.length := by
  intro l
  induction l with
  | nil => simp
  | cons i t ih =>
    intro h
    have hi : i < rows.length := h i (by simp)
    have ⟨a, ha⟩ : ∃ a, rows.get? i = some a := ⟨_, List.get?_eq_get hi⟩
    rw [List.filterMap_cons, ha]
    simp only [List.length_cons]
    rw [ih (fun j hj => h j (by simp [hj]))]

/-! ## Claim C5 — the 50-comment sample -/

/-- C5: for every injected index permutation (the ambient randomness of
`DataFrame.sample`), a batch of at most 50 rows is passed on whole — the
sample is a permutation of the batch, losing no row — and a batch of more
than 50 rows yields a sample of exactly 50 rows drawn without replacement
from the batch (a sub-permutation).  Which 50 are drawn is decided by the
injected uniformly random permutation. -/
theorem claim_C5_theorem (α : Type) (rows : List α) (perm : List Nat)
    (hperm : perm.Perm (List.range rows.length)) :
    (rows.length ≤ 50 → (sampleComments rows perm).Perm rows) ∧
    (50 < rows.length →
      (sampleComments rows perm).length = 50 ∧ (sampleComments rows perm).Subperm rows) := by
  have hpl : perm.length = rows.length := by simpa using hperm.length_eq
  have hmem : ∀ i ∈ perm, i < rows.length := by
    intro i hi
    have hr : i ∈ List.range rows.length := hperm.mem_iff.mp hi
    simpa using hr
  have hfm : (perm.filterMap (fun i => rows.get? i)).Perm rows := by
    have h1 : (perm.filterMap (fun i => rows.get? i)).Perm
        ((List.range rows.length).filterMap (fun i => rows.get? i)) :=
      hperm.filterMap _
    rw [filterMap_get_range] at h1
    exact h1
  constructor
  · intro hle
    by_cases h0 : rows.length = 0
    · have hnil : rows = [] := List.length_eq_zero.mp h0
      subst hnil
      simp [sampleComments]
    · have hpos : 0 < rows.length := Nat.pos_of_ne_zero h0
      have hmin : min 50 rows.length = rows.length := by omega
      have hs : sampleComments rows perm = pandasSample rows rows.length perm := by
        simp only [sampleComments, hmin]
        rw [if_pos hpos]
      rw [hs]
      unfold pandasSample
      rw [List.take_of_length_le (le_of_eq hpl)]
      exact hfm
  · intro hgt
    have hmin : min 50 rows.length = 50 := by omega
    have hs : sampleComments rows perm = pandasSample rows 50 perm := by
      simp only [sampleComments, hmin]
      rw [if_pos (by omega)]
    have hsub : (perm.take 50).Sublist perm := List.take_sublist 50 perm
    constructor
    · rw [hs]
      unfold pandasSample
      rw [filterMap_get_length rows _ (fun i hi => hmem i (hsub.subset hi))]
      rw [List.length_take]
      omega
    · rw [hs]
      unfold pandasSample
      exact ((hsub.filterMap _).subperm).trans hfm.subperm

/-- C5 witness: both branches of the theorem at concrete batches — a 3-row
batch is passed on whole (as a permutation), a 51-row batch yields exactly
50 sampled rows. -/
theorem claim_C5_witness :
    ([2, 0, 1] : List Nat).Perm (List.range ([10, 20, 30] : List Nat).length) ∧
    (sampleComments ([10, 20, 30] : List Nat) [2, 0, 1]).Perm [10, 20, 30] ∧
    (List.range 51).Perm (List.range (List.range 51).length) ∧
    (sampleComments (List.range 51) (List.range 51)).length = 50 := by
  refine ⟨by decide, ?_, ?_, ?_⟩
  · exact (claim_C5_theorem Nat [10, 20, 30] [2, 0, 1] (by decide)).1 (by decide)
  · rw [List.length_range]
  · exact ((claim_C5_theorem Nat (List.range 51) (List.range 51)
      (by rw [List.length_range])).2 (by rw [List.length_range]; omega)).1

/-! ## Claim C7 — when an analysis result is produced -/

/-- With the empty credential, the batch processor never produces a result
(the summarization stage bails out before any network call). -/
theorem process_comment_file_no_key (llm : String → Option String) (perm : List Nat)
    (commentsStore : String → Option (List CommentRow))
    (metaStore : String → Option VideoMetadataRow) (timestamp blob_name : String) :
    (process_comment_file "" llm perm commentsStore metaStore timestamp blob_name).1
      = none := by
  unfold process_comment_file
  cases hcs : commentsStore blob_name with
  | none => simp
  | some df =>
    have ha : analyze_comments_with_openai "" llm perm df
        (metaStore (metadataBlobName (videoIdFromBlob blob_name))) = (none, false) := by
      simp [analyze_comments_with_openai]
    simp [ha]

/-- C7 counterexample: with a present credential and an LLM endpoint that
answers, the batch processor produces an analysis record for an *empty*
comment file (zero rows) — the code never checks the comment file for
emptiness, so "comment file is non-empty" is not required for an
AnalysisResult. -/
theorem claim_C7_counterexample :
    (process_comment_file "k" (fun _ => some "Overall sentiment is neutral.") []
        (fun _ => some ([] : List CommentRow)) (fun _ => none)
        "20240101_000000" "vid00000000_comments.csv").1
      = some { video_id := "vid00000000",
               analysis_file := "vid00000000_analysis_20240101_000000.txt",
               comment_count := 0,
               timestamp := "20240101_000000" } := by
  rfl

/-- C7 (amended): an AnalysisResult is produced only when the LLM credential
is present (non-empty) — the emptiness of the comment file is not checked, so
empty comment files can still be summarized; and with the module's shipped
hardcoded empty credential no analysis is ever produced. -/
theorem claim_C7_theorem (key : String) (llm : String → Option String)
    (perm : List Nat) (commentsStore : String → Option (List CommentRow))
    (metaStore : String → Option VideoMetadataRow) (timestamp blob_name : String)
    (r : AnalysisRecord)
    (h : (process_comment_file key llm perm commentsStore metaStore
        timestamp blob_name).1 = some r) :
    key ≠ "" := by
  intro hk
  subst hk
  rw [process_comment_file_no_key] at h
  exact absurd h (by simp)

/-- C7 witness: the amended theorem applied to a run that does produce a
record. -/
theorem claim_C7_witness :
    (process_comment_file "k" (fun _ => some "Summary.") []
        (fun _ => some [{ author := "a", text := "t", likeCount := 1, publishedAt := "p" }])
        (fun _ => none) "ts" "vid_comments.csv").1
      = some { video_id := "vid", analysis_file := "vid_analysis_ts.txt",
               comment_count := 1, timestamp := "ts" } ∧
    ("k" : String) ≠ "" := by
  constructor
  · rfl
  · exact claim_C7_theorem "k" (fun _ => some "Summary.") []
      (fun _ => some [{ author := "a", text := "t", likeCount := 1, publishedAt := "p" }])
      (fun _ => none) "ts" "vid_comments.csv"
      { video_id := "vid", analysis_file := "vid_analysis_ts.txt",
        comment_count := 1, timestamp := "ts" } rfl

/-! ## Claim C10 — deriving the video id from the blob name -/

/-- C10: the batch processor takes the blob-name prefix before the first
underscore as the video identifier.  For a blob `<id>_comments.csv`: when the
true identifier contains an underscore, the derived identifier is a strict
prefix of it; it equals the true identifier exactly when the identifier has
no underscore.  Whenever a record is produced, its `video_id` field, its
analysis file name, and the metadata blob requested all use that derived
identifier. -/
theorem claim_C10_theorem :
    (∀ id : String,
      ('_' ∈ id.data →
        (videoIdFromBlob (id ++ "_comments.csv")).data <+: id.data ∧
        videoIdFromBlob (id ++ "_comments.csv") ≠ id) ∧
      ('_' ∉ id.data → videoIdFromBlob (id ++ "_comments.csv") = id)) ∧
    (∀ (key : String) (llm : String → Option String) (perm : List Nat)
        (commentsStore : String → Option (List CommentRow))
        (metaStore : String → Option VideoMetadataRow)
        (timestamp blob_name : String) (r : AnalysisRecord) (trace : List String),
      process_comment_file key llm perm commentsStore metaStore timestamp blob_name
        = (some r, trace) →
      r.video_id = videoIdFromBlob blob_name ∧
      r.analysis_file = analysisFilename (videoIdFromBlob blob_name) timestamp ∧
      metadataBlobName (videoIdFromBlob blob_name) ∈ trace) := by
  constructor
  · intro id
    have hdataeq : (id ++ "_comments.csv").data = id.data ++ ('_' :: "comments.csv".data) := by
      rw [string_data_append]
    constructor
    · intro hmem
      have hsplit : (id ++ "_comments.csv").data.takeWhile (fun c => c ≠ '_')
          = id.data.takeWhile (fun c => c ≠ '_') := by
        rw [hdataeq, List.takeWhile_append]
        rw [if_neg]
        intro hlen
        have heq : id.data.takeWhile (fun c => c ≠ '_') = id.data :=
          ( List.takeWhile_prefix _).eq_of_length hlen
        have := List.takeWhile_eq_self_iff.mp heq '_' hmem
        simp at this
      constructor
      · rw [videoIdFromBlob, string_data_mk, hsplit]
        exact List.takeWhile_prefix _
      · intro hcontra
        have hd : (videoIdFromBlob (id ++ "_comments.csv")).data = id.data :=
          congrArg String.data hcontra
        rw [videoIdFromBlob, string_data_mk, hsplit] at hd
        have := List.takeWhile_eq_self_iff.mp hd '_' hmem
        simp at this
    · intro hnmem
      have hall : ∀ c ∈ id.data, decide (c ≠ '_') = true := by
        intro c hc
        rw [decide_eq_true_eq]
        intro hce
        exact hnmem (hce ▸ hc)
      rw [videoIdFromBlob, hdataeq]
      rw [List.takeWhile_append_of_pos hall]
      have hus : List.takeWhile (fun c => decide (c ≠ '_')) ('_' :: "comments.csv".data)
          = [] := by decide
      rw [hus, List.append_nil]
  · intro key llm perm commentsStore metaStore timestamp blob_name r trace h
    simp only [process_comment_file] at h
    split at h
    · simp at h
    · next df heq =>
      split at h
      · simp at h
      · next analysis hA =>
        split at h
        · simp at h
        · rw [Prod.mk.injEq] at h
          obtain ⟨h1, h2⟩ := h
          obtain rfl : _ = r := Option.some.inj h1
          subst h2
          refine ⟨rfl, rfl, ?_⟩
          simp

/-- C10 witness: both derivation branches at concrete identifiers, and the
record/trace part at a concrete run. -/
theorem claim_C10_witness :
    ('_' ∈ ("ab_cdefghij" : String).data) ∧
    (videoIdFromBlob ("ab_cdefghij" ++ "_comments.csv")).data <+:
      ("ab_cdefghij" : String).data ∧
    videoIdFromBlob ("ab_cdefghij" ++ "_comments.csv") ≠ "ab_cdefghij" ∧
    ('_' ∉ ("abcdefghijk" : String).data) ∧
    videoIdFromBlob ("abcdefghijk" ++ "_comments.csv") = "abcdefghijk" ∧
    metadataBlobName (videoIdFromBlob "w_comments.csv")
      ∈ ["w_comments.csv", "w_metadata.csv"] := by
  have h1 := (claim_C10_theorem.1 "ab_cdefghij").1 (by decide)
  have h2 := (claim_C10_theorem.1 "abcdefghijk").2 (by decide)
  have h3 := claim_C10_theorem.2 "k" (fun _ => some "S") []
    (fun _ => some ([] : List CommentRow)) (fun _ => none) "T" "w_comments.csv"
    { video_id := "w", analysis_file := "w_analysis_T.txt",
      comment_count := 0, timestamp := "T" }
    ["w_comments.csv", "w_metadata.csv"] rfl
  exact ⟨by decide, h1.1, h1.2, by decide, h2, h3.2.2⟩
